import Mathlib

/-!
Verification of the data pipeline of `src/app.py` (pricescout).

The program is a dashboard over a pandas DataFrame of laptop listings.
We shallowly embed the data-handling pipeline:

  * a DataFrame cell is a dynamically-typed value (`Cell`): a string, a
    numeric value (pandas float, modelled as `ℚ`), a calendar date
    (pandas Timestamp, modelled as year/month/day), or missing (NaN/NaT);
  * a row of the dataset (`Row`) has the columns
    brand, model, platform, price, city, rating, date;
  * a table (`Table`) is a list of rows plus flags recording whether the
    optional `rating` and `date` columns are present
    (the code tests membership in `df.columns`).

Numeric parsing (`pd.to_numeric(..., errors='coerce')`) is modelled by an
explicit decimal parser `parseNum` covering optional sign, integer part,
and fractional part; strings outside this grammar (scientific notation,
surrounding whitespace, "inf"/"nan") coerce to missing, which agrees with
the coerce-to-NaN behaviour on every string the claims exercise.
-/

/-- A dynamically typed DataFrame cell: string, numeric (pandas float,
modelled exactly as a rational), calendar date (pandas Timestamp), or
missing (NaN / NaT). -/
inductive Cell where
  | str (s : String)
  | num (q : ℚ)
  | date (y m d : ℕ)
  | na
  deriving DecidableEq

/-- One row of the laptop-listings dataset: columns
brand, model, platform, price, city, rating, date of `data/laptop_prices.csv`. -/
structure Row where
  brand : String
  model : String
  platform : String
  price : Cell
  city : String
  rating : Cell
  date : Cell
  deriving DecidableEq

/-- A DataFrame: its rows, plus whether the optional `rating` and `date`
columns are present (`'date' in df.columns` tests in the code). -/
structure Table where
  rows : List Row
  hasRating : Bool
  hasDate : Bool
  deriving DecidableEq

/-- Numeric value of a list of decimal digit characters
(most significant first). -/
def digitsNat (l : List Char) : ℕ :=
  l.foldl (fun a c => 10 * a + (c.toNat - 48)) 0

/-- Fractional value of the digits after the decimal point. -/
def fracVal (l : List Char) : ℚ :=
  (digitsNat l : ℚ) / (10 : ℚ) ^ l.length

/-- Decimal number parser on a character list, modelling
`pd.to_numeric(s, errors='coerce')` on a string: optional sign, digits,
optional point and fraction digits; anything else fails (coerces to NaN). -/
def parseNumL (cs : List Char) : Option ℚ :=
  let neg : Bool := cs.head? == some '-'
  let cs2 := if neg || (cs.head? == some '+') then cs.tail else cs
  let ip := cs2.takeWhile Char.isDigit
  let rest := cs2.dropWhile Char.isDigit
  let core : Option ℚ :=
    if rest = [] then
      if ip = [] then none else some (digitsNat ip : ℚ)
    else if rest.head? == some '.' ∧ rest.tail.all Char.isDigit ∧
        (ip ≠ [] ∨ rest.tail ≠ []) then
      some ((digitsNat ip : ℚ) + fracVal rest.tail)
    else none
  if neg then core.map Neg.neg else core

/-- `pd.to_numeric(errors='coerce')` on one string. -/
def parseNum (s : String) : Option ℚ := parseNumL s.data

/-- The regex replacement `.str.replace('[₹,]', '', regex=True)`:
delete every rupee sign and every comma. -/
def stripCurrencyL (cs : List Char) : List Char :=
  cs.filter (fun c => !(c == '₹' || c == ','))

/-- Currency stripping on a string (line 77 of `app.py`). -/
def stripCurrency (s : String) : String := ⟨stripCurrencyL s.data⟩

/-- The price-column transform of `preprocess_data` (line 77):
`pd.to_numeric(df['price'].astype(str).str.replace('[₹,]','',regex=True),
errors='coerce')` acting on one cell.  A numeric cell round-trips through
its float repr (which contains no `₹` or `,`) back to the same value; a
missing cell prints as "nan", which `to_numeric` maps back to NaN. -/
def coercePrice : Cell → Cell
  | Cell.str s =>
      match parseNumL (stripCurrencyL s.data) with
      | some q => Cell.num q
      | none => Cell.na
  | Cell.num q => Cell.num q
  | Cell.date _ _ _ => Cell.na
  | Cell.na => Cell.na

/-- The rating-column transform of `preprocess_data` (line 80):
`pd.to_numeric(df['rating'], errors='coerce')` on one cell. -/
def coerceRating : Cell → Cell
  | Cell.str s =>
      match parseNum s with
      | some q => Cell.num q
      | none => Cell.na
  | Cell.num q => Cell.num q
  | Cell.date _ _ _ => Cell.na
  | Cell.na => Cell.na

/-- Number of days in a month (with the Gregorian leap rule), used to
validate parsed dates. -/
def daysInMonth (y m : ℕ) : ℕ :=
  if m = 2 then
    if y % 4 = 0 ∧ (y % 100 ≠ 0 ∨ y % 400 = 0) then 29 else 28
  else if m = 4 ∨ m = 6 ∨ m = 9 ∨ m = 11 then 30
  else 31

/-- ISO `YYYY-MM-DD` date parser, modelling the date formats
`pd.to_datetime(errors='coerce')` accepts in this dataset; out-of-range
components fail (coerce to NaT). -/
def parseDate (s : String) : Option (ℕ × ℕ × ℕ) :=
  match s.split (· = '-') with
  | [ys, ms, ds] =>
      if ys.data ≠ [] ∧ ys.data.all Char.isDigit ∧
         ms.data ≠ [] ∧ ms.data.all Char.isDigit ∧
         ds.data ≠ [] ∧ ds.data.all Char.isDigit then
        let y := digitsNat ys.data
        let m := digitsNat ms.data
        let d := digitsNat ds.data
        if 1 ≤ m ∧ m ≤ 12 ∧ 1 ≤ d ∧ d ≤ daysInMonth y m then
          some (y, m, d)
        else none
      else none
  | _ => none

/-- The date-column transform of `preprocess_data` (line 85):
`pd.to_datetime(df['date'], errors='coerce')` on one cell.  (Numeric
epoch offsets are outside the dataset's date format and are modelled as
coercion failure.) -/
def coerceDate : Cell → Cell
  | Cell.str s =>
      match parseDate s with
      | some (y, m, d) => Cell.date y m d
      | none => Cell.na
  | Cell.num _ => Cell.na
  | Cell.date y m d => Cell.date y m d
  | Cell.na => Cell.na

/-- The two column assignments of lines 77 and 80 of `app.py`, applied to
one row. -/
def rowNumericStep (r : Row) : Row :=
  { r with price := coercePrice r.price, rating := coerceRating r.rating }

/-- Does a cell hold a (non-missing) numeric value?  `dropna` on the
price column keeps exactly the rows where this holds after coercion. -/
def isNum : Cell → Bool
  | Cell.num _ => true
  | _ => false

/-- `pd.isna` on one cell: true exactly for NaN / NaT. -/
def cellIsNA : Cell → Bool
  | Cell.na => true
  | _ => false

/-- The conditional date conversion of lines 84-85: only when the table
has a `date` column. -/
def rowDateStep (hasDate : Bool) (r : Row) : Row :=
  if hasDate then { r with date := coerceDate r.date } else r

/-- `preprocess_data` (lines 71-87 of `app.py`): empty input short-circuits;
otherwise coerce price (stripping `₹` and `,`) and rating to numeric, drop
rows whose price is missing after coercion, and convert the date column
when present. -/
def preprocess_data (t : Table) : Table :=
  if t.rows = [] then t
  else
    { t with
      rows :=
        (((t.rows.map rowNumericStep).filter fun r => isNum r.price).map
          (rowDateStep t.hasDate)) }

/-! ## Filter Engine (lines 264-278 of `app.py`) -/

/-- The sidebar filter state: brand multiselect, price-range slider,
platform multiselect, city selectbox.  The string "All" is the
select-all sentinel. -/
structure FilterCriteria where
  brands : List String
  lo : ℚ
  hi : ℚ
  platforms : List String
  city : String

/-- `cell >= q` as pandas evaluates it on the price column: comparisons
against NaN (and anything non-numeric) are false. -/
def cellGE (c : Cell) (q : ℚ) : Bool :=
  match c with
  | Cell.num p => q ≤ p
  | _ => false

/-- `cell <= q` with pandas NaN semantics (false on non-numeric). -/
def cellLE (c : Cell) (q : ℚ) : Bool :=
  match c with
  | Cell.num p => p ≤ q
  | _ => false

/-- The four filter dimensions applied by `main` in source order. -/
inductive FilterDim where
  | brand
  | price
  | platform
  | city
  deriving DecidableEq

/-- One filter application, exactly as written in lines 266-278:
the brand and platform filters are skipped when "All" is selected, the
price filter is always active, the city filter is skipped when the
selection is "All". -/
def filterStep (c : FilterCriteria) (d : FilterDim) (l : List Row) : List Row :=
  match d with
  | FilterDim.brand =>
      if c.brands.contains "All" then l
      else l.filter fun r => c.brands.contains r.brand
  | FilterDim.price =>
      l.filter fun r => cellGE r.price c.lo && cellLE r.price c.hi
  | FilterDim.platform =>
      if c.platforms.contains "All" then l
      else l.filter fun r => c.platforms.contains r.platform
  | FilterDim.city =>
      if c.city == "All" then l
      else l.filter fun r => r.city == c.city

/-- The filter pipeline of `main`: brand, then price, then platform,
then city, on a copy of the input. -/
def applyFilters (c : FilterCriteria) (t : Table) : Table :=
  { t with
    rows :=
      [FilterDim.brand, FilterDim.price, FilterDim.platform,
        FilterDim.city].foldl (fun l d => filterStep c d l) t.rows }

/-- The row predicate of one filter dimension (select-all sentinels make
the predicate vacuously true). -/
def dimPred (c : FilterCriteria) (d : FilterDim) (r : Row) : Bool :=
  match d with
  | FilterDim.brand => c.brands.contains "All" || c.brands.contains r.brand
  | FilterDim.price => cellGE r.price c.lo && cellLE r.price c.hi
  | FilterDim.platform =>
      c.platforms.contains "All" || c.platforms.contains r.platform
  | FilterDim.city => c.city == "All" || r.city == c.city

/-! ## Aggregator (`identify_cheapest_platforms`, lines 203-212) -/

/-- The numeric content of a cell, when any. -/
def numOf : Cell → Option ℚ
  | Cell.num q => some q
  | _ => none

/-- The non-missing numeric prices of a list of rows, in row order
(pandas aggregations over the price column skip NaN). -/
def numPrices (rows : List Row) : List ℚ :=
  rows.filterMap fun r => numOf r.price

/-- Mean of a list of rationals (pandas mean of the non-NaN values;
on an all-NaN group pandas yields NaN, modelled here by the junk value
`0 / 0 = 0` — unreachable for groups of preprocessed rows). -/
def meanQ (l : List ℚ) : ℚ := l.sum / (l.length : ℚ)

/-- Minimum of a list of rationals (pandas min skipping NaN; junk value 0
on the empty list, likewise unreachable). -/
def minQ (l : List ℚ) : ℚ :=
  match l with
  | [] => 0
  | x :: xs => xs.foldl min x

/-- Maximum of a list of rationals, same conventions as `minQ`. -/
def maxQ (l : List ℚ) : ℚ :=
  match l with
  | [] => 0
  | x :: xs => xs.foldl max x

/-- Round half to even at integer precision, the rounding rule of
`DataFrame.round` (numpy banker's rounding, modelled exactly on ℚ). -/
def roundHalfEven (x : ℚ) : ℤ :=
  if x - ⌊x⌋ < 1/2 then ⌊x⌋
  else if (1:ℚ)/2 < x - ⌊x⌋ then ⌊x⌋ + 1
  else if Even ⌊x⌋ then ⌊x⌋ else ⌊x⌋ + 1

/-- `.round(2)`: round half to even at two decimal places. -/
def round2 (q : ℚ) : ℚ := (roundHalfEven (q * 100) : ℚ) / 100

/-- One row of the `platform_stats` frame: columns
platform, avg_price, min_price, product_count. -/
structure PStat where
  platform : String
  avg_price : ℚ
  min_price : ℚ
  product_count : ℕ
  deriving DecidableEq

/-- Lexicographic codepoint order on character lists, the order Python
strings sort by. -/
def charListLE : List Char → List Char → Bool
  | [], _ => true
  | _ :: _, [] => false
  | a :: as, b :: bs =>
      if a < b then true else if b < a then false else charListLE as bs

/-- String order (Python `<=` on str, by Unicode code point). -/
def strLE (a b : String) : Bool := charListLE a.data b.data

/-- The distinct platform keys in sorted order:
`groupby('platform')` sorts group keys ascending. -/
def platformKeys (rows : List Row) : List String :=
  List.insertionSort (fun a b => strLE a b = true) ((rows.map Row.platform).dedup)

/-- The (skipna) price values of one platform's group. -/
def groupPrices (rows : List Row) (k : String) : List ℚ :=
  numPrices (rows.filter fun r => r.platform == k)

/-- The aggregation of lines 205-209: group by platform, reduce each
group to (mean price, min price, non-null count), round to 2 decimals
(`count` is integral, so rounding only affects the mean and min). -/
def platform_stats (rows : List Row) : List PStat :=
  (platformKeys rows).map fun k =>
    { platform := k,
      avg_price := round2 (meanQ (groupPrices rows k)),
      min_price := round2 (minQ (groupPrices rows k)),
      product_count := (groupPrices rows k).length }

/-- `sort_values('avg_price')`: sort the stats ascending by mean price
(ties in unspecified order in pandas; a stable sort realises one
admissible order). -/
def sortByAvg (l : List PStat) : List PStat :=
  List.insertionSort (fun a b => a.avg_price ≤ b.avg_price) l

/-- `identify_cheapest_platforms` (lines 203-212): the aggregated,
sorted platform stats, truncated by `.head(2)` to the two cheapest. -/
def identify_cheapest_platforms (rows : List Row) : List PStat :=
  (sortByAvg (platform_stats rows)).take 2

/-! ## Full-range criteria derivation (lines 238-245 of `main`) -/

/-- Python `int()` on a float: truncation toward zero. -/
def pyInt (q : ℚ) : ℤ := if q < 0 then -⌊-q⌋ else ⌊q⌋

/-- The criteria `main` builds when every widget is left at its default:
brand and platform multiselects hold the sentinel `["All"]`, the city
selectbox is at "All", and the slider default is
`(int(df['price'].min()), int(df['price'].max()))`. -/
def fullRangeCriteria (t : Table) : FilterCriteria :=
  { brands := ["All"],
    lo := (pyInt (minQ (numPrices t.rows)) : ℚ),
    hi := (pyInt (maxQ (numPrices t.rows)) : ℚ),
    platforms := ["All"],
    city := "All" }

/-! ## View builders (`create_rating_price_scatter`, lines 180-201, and
`create_price_trend_chart`, lines 130-163) -/

/-- Result of the rating-vs-price view builder: either the user-visible
"unavailable" warning and no figure (the function warns and returns
`None`), or the scatter input, one point per row of the frame:
(x=rating, y=price, color=platform, size=price, hover brand and model). -/
inductive ScatterView where
  | unavailable (msg : String)
  | chart (points : List (Cell × Cell × String × Cell × String × String))
  deriving DecidableEq

/-- `create_rating_price_scatter`: when the `rating` column is absent or
every rating is missing, emit the warning and return no chart; otherwise
pass the rows through as scatter points. -/
def create_rating_price_scatter (t : Table) : ScatterView :=
  if !t.hasRating || t.rows.all (fun r => cellIsNA r.rating) then
    ScatterView.unavailable
      "Rating data not available for scatter plot analysis."
  else
    ScatterView.chart
      (t.rows.map fun r =>
        (r.rating, r.price, r.platform, r.price, r.brand, r.model))

/-- The trend figure: its point list ((year, month, day), mean price)
and whether it is the sample-data placeholder. -/
structure TrendView where
  sample : Bool
  points : List ((ℕ × ℕ × ℕ) × ℚ)
  deriving DecidableEq

/-- `pd.date_range('2024-01-01', '2024-12-31', freq='M')`:
the twelve month-end dates of 2024. -/
def monthEnds2024 : List (ℕ × ℕ × ℕ) :=
  [(2024, 1, 31), (2024, 2, 29), (2024, 3, 31), (2024, 4, 30),
   (2024, 5, 31), (2024, 6, 30), (2024, 7, 31), (2024, 8, 31),
   (2024, 9, 30), (2024, 10, 31), (2024, 11, 30), (2024, 12, 31)]

/-- The (year, month) key of a row's date cell, when it is a date
(`groupby` over `dt.to_period('M')` drops NaT rows). -/
def monthKey (r : Row) : Option (ℕ × ℕ) :=
  match r.date with
  | Cell.date y m _ => some (y, m)
  | _ => none

/-- Chronological order on (year, month) period keys. -/
def monthLE (a b : ℕ × ℕ) : Bool :=
  a.1 < b.1 || (a.1 == b.1 && a.2 ≤ b.2)

/-- The distinct month periods of a list of rows, sorted chronologically
(`groupby` sorts its keys). -/
def monthKeysSorted (rows : List Row) : List (ℕ × ℕ) :=
  List.insertionSort (fun a b => monthLE a b) ((rows.filterMap monthKey).dedup)

/-- The (skipna) prices of the rows falling in one month period. -/
def monthPrices (rows : List Row) (k : ℕ × ℕ) : List ℚ :=
  numPrices (rows.filter fun r => monthKey r == some k)

/-- `create_price_trend_chart` (lines 130-163).  `rng` models the global
numpy random state consumed by `np.random.randint(40000, 80000, 12)`:
draw `i` yields `40000 + rng i % 40000`.  With no `date` column or all
dates missing, the placeholder series pairs the fixed 2024 month ends
with twelve random values; otherwise group by month period, average the
prices, and plot at each period's starting timestamp (day 1). -/
def create_price_trend_chart (rng : ℕ → ℕ) (t : Table) : TrendView :=
  if !t.hasDate || t.rows.all (fun r => cellIsNA r.date) then
    { sample := true,
      points :=
        monthEnds2024.zip
          ((List.range 12).map fun i => ((40000 + rng i % 40000 : ℕ) : ℚ)) }
  else
    { sample := false,
      points :=
        (monthKeysSorted t.rows).map fun k =>
          ((k.1, k.2, 1), meanQ (monthPrices t.rows k)) }

/-- A two-row sample frame used to instantiate the filter-engine
theorems on concrete data. -/
def sampleRows : List Row :=
  [{ brand := "Dell", model := "XPS", platform := "Amazon",
     price := Cell.num 60000, city := "Bhopal",
     rating := Cell.num 4, date := Cell.na },
   { brand := "HP", model := "Pavilion", platform := "Flipkart",
     price := Cell.num 45000, city := "Indore",
     rating := Cell.na, date := Cell.na }]

/-- A sample criteria choosing one brand and one city. -/
def sampleCriteria : FilterCriteria :=
  { brands := ["Dell"], lo := 0, hi := 100000,
    platforms := ["All"], city := "Bhopal" }

/-- A raw frame holding a syntactically negative price string; `preprocess_data`
parses it to the negative number −500 and keeps the row. -/
def negPriceTable : Table :=
  { rows := [{ brand := "Acer", model := "Swift", platform := "Amazon",
               price := Cell.str "-500", city := "Bhopal",
               rating := Cell.na, date := Cell.na }],
    hasRating := true, hasDate := false }

/-- A raw one-row frame whose price carries the rupee sign and Indian
thousands separators, as in the spec's example. -/
def rupeeExampleTable : Table :=
  { rows := [{ brand := "Lenovo", model := "ThinkPad", platform := "Amazon",
               price := Cell.str "₹1,23,456", city := "Bhopal",
               rating := Cell.na, date := Cell.na }],
    hasRating := true, hasDate := false }

/-- A filtered frame with a rating present, and one with none. -/
def ratedTable : Table :=
  { rows := [{ brand := "Dell", model := "XPS", platform := "Amazon",
               price := Cell.num 60000, city := "Bhopal",
               rating := Cell.num 4, date := Cell.na }],
    hasRating := true, hasDate := false }

/-- The same frame with the rating missing. -/
def unratedTable : Table :=
  { rows := [{ brand := "Dell", model := "XPS", platform := "Amazon",
               price := Cell.num 60000, city := "Bhopal",
               rating := Cell.na, date := Cell.na }],
    hasRating := true, hasDate := false }

/-- A filtered frame with no date column, sending the trend builder to
its placeholder branch. -/
def datelessTable : Table :=
  { rows := [{ brand := "Dell", model := "XPS", platform := "Amazon",
               price := Cell.num 60000, city := "Bhopal",
               rating := Cell.num 4, date := Cell.na }],
    hasRating := true, hasDate := false }

/-- A preprocessed frame whose (single) price is the fractional number
100000.5: `int(df['price'].max())` truncates it to 100000, so the default
slider range already excludes the row. -/
def fracPriceTable : Table :=
  { rows := [{ brand := "Dell", model := "XPS", platform := "Amazon",
               price := Cell.num (Rat.divInt 200001 2), city := "Bhopal",
               rating := Cell.na, date := Cell.na }],
    hasRating := true, hasDate := false }

/-- A one-row preprocessed frame with a whole-number price. -/
def intPriceTable : Table :=
  { rows := [{ brand := "HP", model := "Pavilion", platform := "Flipkart",
               price := Cell.num 45000, city := "Bhopal",
               rating := Cell.num 4, date := Cell.na }],
    hasRating := true, hasDate := false }

/-- Three one-listing platforms with mean prices 50000 (A), 40000 (B) and
60000 (C): the spec's worked example for the cheapest-platform ranking. -/
def abcRows : List Row :=
  [{ brand := "Dell", model := "m1", platform := "A",
     price := Cell.num 50000, city := "Bhopal",
     rating := Cell.na, date := Cell.na },
   { brand := "HP", model := "m2", platform := "B",
     price := Cell.num 40000, city := "Bhopal",
     rating := Cell.na, date := Cell.na },
   { brand := "Acer", model := "m3", platform := "C",
     price := Cell.num 60000, city := "Bhopal",
     rating := Cell.na, date := Cell.na }]

/-! ## Helper lemmas -/

theorem filterStep_eq_filter (c : FilterCriteria) (d : FilterDim) (l : List Row) :
    filterStep c d l = l.filter (dimPred c d) := by
  cases d with
  | brand =>
    simp only [filterStep]
    by_cases h : c.brands.contains "All" = true
    · rw [if_pos h]
      symm
      apply List.filter_eq_self.mpr
      intro r _
      simp only [dimPred, h, Bool.true_or]
    · rw [Bool.not_eq_true] at h
      rw [if_neg (by rw [h]; exact Bool.false_ne_true)]
      apply List.filter_congr
      intro r _
      simp only [dimPred, h, Bool.false_or]
  | price => rfl
  | platform =>
    simp only [filterStep]
    by_cases h : c.platforms.contains "All" = true
    · rw [if_pos h]
      symm
      apply List.filter_eq_self.mpr
      intro r _
      simp only [dimPred, h, Bool.true_or]
    · rw [Bool.not_eq_true] at h
      rw [if_neg (by rw [h]; exact Bool.false_ne_true)]
      apply List.filter_congr
      intro r _
      simp only [dimPred, h, Bool.false_or]
  | city =>
    simp only [filterStep]
    by_cases h : (c.city == "All") = true
    · rw [if_pos h]
      symm
      apply List.filter_eq_self.mpr
      intro r _
      simp only [dimPred, h, Bool.true_or]
    · rw [Bool.not_eq_true] at h
      rw [if_neg (by rw [h]; exact Bool.false_ne_true)]
      apply List.filter_congr
      intro r _
      simp only [dimPred, h, Bool.false_or]

theorem foldl_filterStep (c : FilterCriteria) (dims : List FilterDim) :
    ∀ l : List Row,
      dims.foldl (fun l d => filterStep c d l) l =
        l.filter fun r => dims.all fun d => dimPred c d r := by
  induction dims with
  | nil => intro l; simp
  | cons d ds ih =>
    intro l
    calc (d :: ds).foldl (fun l d => filterStep c d l) l
        = ds.foldl (fun l d => filterStep c d l) (filterStep c d l) := rfl
      _ = (filterStep c d l).filter (fun r => ds.all fun e => dimPred c e r) :=
          ih _
      _ = (l.filter (dimPred c d)).filter (fun r => ds.all fun e => dimPred c e r) := by
          rw [filterStep_eq_filter]
      _ = l.filter fun r => (d :: ds).all fun e => dimPred c e r := by
          rw [List.filter_filter]
          apply List.filter_congr
          intro r _
          simp [Bool.and_comm]

theorem perm_all {α : Type} {l l2 : List α} (f : α → Bool) (h : l.Perm l2) :
    l.all f = l2.all f := by
  apply Bool.eq_iff_iff.mpr
  simp only [List.all_eq_true]
  exact ⟨fun H x hx => H x (h.mem_iff.mpr hx), fun H x hx => H x (h.mem_iff.mp hx)⟩

theorem rowDateStep_price (h : Bool) (r : Row) : (rowDateStep h r).price = r.price := by
  cases h <;> rfl

theorem rowDateStep_rating (h : Bool) (r : Row) : (rowDateStep h r).rating = r.rating := by
  cases h <;> rfl

theorem preprocess_rows (t : Table) :
    (preprocess_data t).rows =
      (t.rows.filter fun r => isNum (coercePrice r.price)).map
        fun r => rowDateStep t.hasDate (rowNumericStep r) := by
  by_cases h : t.rows = []
  · simp [preprocess_data, h]
  · simp only [preprocess_data, if_neg h]
    rw [List.filter_map, List.map_map]
    rfl

theorem coercePrice_idem (c : Cell) : coercePrice (coercePrice c) = coercePrice c := by
  cases c with
  | str s =>
    simp only [coercePrice]
    cases parseNumL (stripCurrencyL s.data) <;> rfl
  | num q => rfl
  | date y m d => rfl
  | na => rfl

theorem coerceRating_idem (c : Cell) : coerceRating (coerceRating c) = coerceRating c := by
  cases c with
  | str s =>
    simp only [coerceRating]
    cases parseNum s <;> rfl
  | num q => rfl
  | date y m d => rfl
  | na => rfl

theorem coerceDate_idem (c : Cell) : coerceDate (coerceDate c) = coerceDate c := by
  cases c with
  | str s =>
    simp only [coerceDate]
    cases parseDate s with
    | none => rfl
    | some v => cases v with | mk y md => cases md; rfl
  | num q => rfl
  | date y m d => rfl
  | na => rfl

theorem foldl_min_le_init (t : List ℚ) : ∀ x : ℚ, t.foldl min x ≤ x := by
  induction t with
  | nil => intro x; exact le_refl x
  | cons b u ih =>
    intro x
    exact le_trans (ih (min x b)) (min_le_left _ _)

theorem foldl_min_le_mem (t : List ℚ) : ∀ x y : ℚ, y ∈ t → t.foldl min x ≤ y := by
  induction t with
  | nil => intro x y h; cases h
  | cons b u ih =>
    intro x y h
    rcases List.mem_cons.mp h with rfl | hy
    · exact le_trans (foldl_min_le_init u (min x y)) (min_le_right _ _)
    · exact ih (min x b) y hy

theorem foldl_max_init_le (t : List ℚ) : ∀ x : ℚ, x ≤ t.foldl max x := by
  induction t with
  | nil => intro x; exact le_refl x
  | cons b u ih =>
    intro x
    exact le_trans (le_max_left _ _) (ih (max x b))

theorem foldl_le_max_mem (t : List ℚ) : ∀ x y : ℚ, y ∈ t → y ≤ t.foldl max x := by
  induction t with
  | nil => intro x y h; cases h
  | cons b u ih =>
    intro x y h
    rcases List.mem_cons.mp h with rfl | hy
    · exact le_trans (le_max_right _ _) (foldl_max_init_le u (max x y))
    · exact ih (max x b) y hy

theorem minQ_le_mem (l : List ℚ) (y : ℚ) (h : y ∈ l) : minQ l ≤ y := by
  cases l with
  | nil => cases h
  | cons x xs =>
    rcases List.mem_cons.mp h with rfl | hy
    · exact foldl_min_le_init xs y
    · exact foldl_min_le_mem xs x y hy

theorem le_maxQ_mem (l : List ℚ) (y : ℚ) (h : y ∈ l) : y ≤ maxQ l := by
  cases l with
  | nil => cases h
  | cons x xs =>
    rcases List.mem_cons.mp h with rfl | hy
    · exact foldl_max_init_le xs y
    · exact foldl_le_max_mem xs x y hy

theorem pyInt_intCast (a : ℤ) : pyInt (a : ℚ) = a := by
  unfold pyInt
  by_cases h : (a : ℚ) < 0
  · rw [if_pos h]
    have h2 : -((a : ℚ)) = ((-a : ℤ) : ℚ) := by push_cast; ring
    rw [h2, Int.floor_intCast, neg_neg]
  · rw [if_neg h, Int.floor_intCast]

theorem digit_ne_minus {c : Char} (h : c.isDigit = true) : c ≠ '-' := by
  intro he
  subst he
  exact absurd h (by decide)

theorem digit_ne_plus {c : Char} (h : c.isDigit = true) : c ≠ '+' := by
  intro he
  subst he
  exact absurd h (by decide)

theorem takeWhile_append_all {p : Char → Bool} :
    ∀ (l m : List Char), l.all p = true → (l ++ m).takeWhile p = l ++ m.takeWhile p := by
  intro l m hl
  induction l with
  | nil => simp
  | cons a t ih =>
    simp only [List.all_cons, Bool.and_eq_true] at hl
    simp [List.takeWhile_cons, hl.1, ih hl.2]

theorem dropWhile_append_all {p : Char → Bool} :
    ∀ (l m : List Char), l.all p = true → (l ++ m).dropWhile p = m.dropWhile p := by
  intro l m hl
  induction l with
  | nil => simp
  | cons a t ih =>
    simp only [List.all_cons, Bool.and_eq_true] at hl
    simp [List.dropWhile_cons, hl.1, ih hl.2]

theorem parseNumL_digits (l : List Char) (h1 : l ≠ []) (h2 : l.all Char.isDigit = true) :
    parseNumL l = some ((digitsNat l : ℕ) : ℚ) := by
  cases l with
  | nil => exact absurd rfl h1
  | cons c t =>
    simp only [List.all_cons, Bool.and_eq_true] at h2
    have hc := h2.1
    have hneg : (((c :: t).head? == some '-') : Bool) = false := by
      simp [List.head?]
      exact digit_ne_minus hc
    have hplus : (((c :: t).head? == some '+') : Bool) = false := by
      simp [List.head?]
      exact digit_ne_plus hc
    have hall : (c :: t).all Char.isDigit = true := by
      simp [List.all_cons, hc, h2.2]
    simp only [parseNumL, hneg, hplus, Bool.or_self, Bool.false_or, if_neg,
      Bool.false_eq_true, not_false_iff, ite_false,
      List.takeWhile_eq_self_iff.mpr (List.all_eq_true.mp hall),
      List.dropWhile_eq_nil_iff.mpr (List.all_eq_true.mp hall)]
    simp

theorem parseNumL_digits_frac (ds fs : List Char) (h1 : ds ≠ [])
    (h2 : ds.all Char.isDigit = true) (h3 : fs.all Char.isDigit = true) :
    parseNumL (ds ++ '.' :: fs) = some ((digitsNat ds : ℚ) + fracVal fs) := by
  cases ds with
  | nil => exact absurd rfl h1
  | cons c t =>
    simp only [List.all_cons, Bool.and_eq_true] at h2
    have hc := h2.1
    have hneg : (((c :: t ++ '.' :: fs).head? == some '-') : Bool) = false := by
      simp [List.head?]
      exact digit_ne_minus hc
    have hplus : (((c :: t ++ '.' :: fs).head? == some '+') : Bool) = false := by
      simp [List.head?]
      exact digit_ne_plus hc
    have hall : (c :: t).all Char.isDigit = true := by
      simp [List.all_cons, hc, h2.2]
    have htake : ((c :: t) ++ '.' :: fs).takeWhile Char.isDigit = (c :: t) := by
      rw [takeWhile_append_all _ _ hall]
      simp [List.takeWhile_cons]
    have hdrop : ((c :: t) ++ '.' :: fs).dropWhile Char.isDigit = '.' :: fs := by
      rw [dropWhile_append_all _ _ hall]
      simp [List.dropWhile_cons]
    simp only [parseNumL, List.cons_append] at *
    simp only [hneg, hplus, Bool.or_self, Bool.false_or]
    simp only [if_neg (by simp : ¬ (false : Bool) = true)]
    rw [htake, hdrop]
    simp [h3]

theorem preprocess_hasDate (t : Table) : (preprocess_data t).hasDate = t.hasDate := by
  unfold preprocess_data
  by_cases h : t.rows = []
  · rw [if_pos h]
  · rw [if_neg h]

theorem preprocess_hasRating (t : Table) :
    (preprocess_data t).hasRating = t.hasRating := by
  unfold preprocess_data
  by_cases h : t.rows = []
  · rw [if_pos h]
  · rw [if_neg h]

theorem table_ext {a b : Table} (h1 : a.rows = b.rows)
    (h2 : a.hasRating = b.hasRating) (h3 : a.hasDate = b.hasDate) : a = b := by
  cases a
  cases b
  simp_all

theorem isNum_eq_num {c : Cell} (h : isNum c = true) : ∃ q : ℚ, c = Cell.num q := by
  cases c with
  | str s => exact absurd h (by simp [isNum])
  | num q => exact ⟨q, rfl⟩
  | date y m d => exact absurd h (by simp [isNum])
  | na => exact absurd h (by simp [isNum])

theorem rowNumericStep_fix (h : Bool) (x : Row) :
    rowNumericStep (rowDateStep h (rowNumericStep x)) = rowDateStep h (rowNumericStep x) := by
  cases h
  · simp [rowDateStep, rowNumericStep, coercePrice_idem, coerceRating_idem]
  · simp [rowDateStep, rowNumericStep, coercePrice_idem, coerceRating_idem]

theorem rowDateStep_fix (h : Bool) (x : Row) :
    rowDateStep h (rowDateStep h (rowNumericStep x)) = rowDateStep h (rowNumericStep x) := by
  cases h
  · rfl
  · simp [rowDateStep, coerceDate_idem]

/-- Claim C10: the Filter Engine only removes rows — the filtered output
is a sublist of the input rows: every surviving row is an input row, with
all fields unchanged and the input's relative order preserved. -/
theorem c10_filters_sublist (c : FilterCriteria) (t : Table) :
    (applyFilters c t).rows.Sublist t.rows := by
  simp only [applyFilters]
  rw [foldl_filterStep]
  exact List.filter_sublist t.rows

/-- Claim C3: preprocessing excludes exactly the rows whose price does not
coerce to a number after currency stripping: the output row count is the
input count minus the unparsable count, and the output is the parsable
rows, in order, with the column coercions applied (no per-row error: the
function is total). -/
theorem c3_unparsable_rows_excluded (t : Table) :
    (preprocess_data t).rows.length =
      t.rows.length - t.rows.countP (fun r => !(isNum (coercePrice r.price))) ∧
    (preprocess_data t).rows =
      (t.rows.filter fun r => isNum (coercePrice r.price)).map
        (fun r => rowDateStep t.hasDate (rowNumericStep r)) := by
  refine ⟨?_, preprocess_rows t⟩
  rw [preprocess_rows, List.length_map, ← List.countP_eq_length_filter]
  have h := List.length_eq_countP_add_countP
    (fun r => isNum (coercePrice r.price)) (l := t.rows)
  have h2 : t.rows.countP (fun r => !(isNum (coercePrice r.price))) =
      t.rows.countP (fun a => decide ¬((isNum (coercePrice a.price)) = true)) := by
    apply List.countP_congr
    intro a _
    simp
  omega

/-- Claim C7: preprocessing is idempotent — applying `preprocess_data` to
its own output changes nothing (already-numeric prices and ratings and
already-typed dates pass through unchanged, and no further row is
dropped). -/
theorem c7_preprocess_idempotent (t : Table) :
    preprocess_data (preprocess_data t) = preprocess_data t := by
  apply table_ext
  · -- rows
    rw [preprocess_rows (preprocess_data t)]
    have hfix : ∀ r ∈ (preprocess_data t).rows,
        isNum (coercePrice r.price) = true ∧
          rowDateStep (preprocess_data t).hasDate (rowNumericStep r) = r := by
      intro r hr
      rw [preprocess_rows t] at hr
      obtain ⟨x, hx, rfl⟩ := List.mem_map.mp hr
      have hpx : isNum (coercePrice x.price) = true := (List.mem_filter.mp hx).2
      obtain ⟨q, hq⟩ := isNum_eq_num hpx
      constructor
      · rw [rowDateStep_price]
        show isNum (coercePrice (coercePrice x.price)) = true
        rw [hq]
        rfl
      · rw [preprocess_hasDate, rowNumericStep_fix, rowDateStep_fix]
    have hfilter : (preprocess_data t).rows.filter
        (fun r => isNum (coercePrice r.price)) = (preprocess_data t).rows :=
      List.filter_eq_self.mpr fun r hr => (hfix r hr).1
    rw [hfilter]
    calc (preprocess_data t).rows.map
          (fun r => rowDateStep (preprocess_data t).hasDate (rowNumericStep r))
        = (preprocess_data t).rows.map id :=
          List.map_congr_left fun r hr => (hfix r hr).2
      _ = (preprocess_data t).rows := List.map_id _
  · rw [preprocess_hasRating]
  · rw [preprocess_hasDate]

/-- Claim C5: the four filter dimensions compose conjunctively — a row
survives exactly when it satisfies every active predicate — and applying
the individual filters in any order yields the same result set as the
source's brand-price-platform-city order. -/
theorem c5_filters_conjunctive_commutative (c : FilterCriteria) (t : Table)
    (dims : List FilterDim)
    (hperm : dims.Perm
      [FilterDim.brand, FilterDim.price, FilterDim.platform, FilterDim.city]) :
    dims.foldl (fun l d => filterStep c d l) t.rows = (applyFilters c t).rows ∧
    (applyFilters c t).rows =
      t.rows.filter fun r =>
        dimPred c FilterDim.brand r && dimPred c FilterDim.price r &&
          dimPred c FilterDim.platform r && dimPred c FilterDim.city r := by
  have hcanon : (applyFilters c t).rows =
      t.rows.filter fun r =>
        [FilterDim.brand, FilterDim.price, FilterDim.platform,
          FilterDim.city].all fun d => dimPred c d r := by
    simp only [applyFilters]
    rw [foldl_filterStep]
  constructor
  · rw [foldl_filterStep, hcanon]
    apply List.filter_congr
    intro r _
    exact perm_all _ hperm
  · rw [hcanon]
    apply List.filter_congr
    intro r _
    simp [Bool.and_assoc]

theorem c5_witness :
    ([FilterDim.city, FilterDim.platform, FilterDim.price,
        FilterDim.brand].Perm
      [FilterDim.brand, FilterDim.price, FilterDim.platform,
        FilterDim.city]) ∧
    (([FilterDim.city, FilterDim.platform, FilterDim.price,
        FilterDim.brand].foldl
          (fun l d => filterStep sampleCriteria d l)
          ({ rows := sampleRows, hasRating := true, hasDate := false } : Table).rows =
        (applyFilters sampleCriteria
          { rows := sampleRows, hasRating := true, hasDate := false }).rows) ∧
      (applyFilters sampleCriteria
          { rows := sampleRows, hasRating := true, hasDate := false }).rows =
        sampleRows.filter fun r =>
          dimPred sampleCriteria FilterDim.brand r &&
            dimPred sampleCriteria FilterDim.price r &&
              dimPred sampleCriteria FilterDim.platform r &&
                dimPred sampleCriteria FilterDim.city r) :=
  ⟨by decide,
    c5_filters_conjunctive_commutative sampleCriteria
      { rows := sampleRows, hasRating := true, hasDate := false }
      [FilterDim.city, FilterDim.platform, FilterDim.price, FilterDim.brand]
      (by decide)⟩

/-- Counterexample to claim C6 as stated: preprocessing retains a row with
the negative numeric price −500 — the code never checks sign, so retained
prices are not necessarily non-negative. -/
theorem c6_counterexample :
    (preprocess_data negPriceTable).rows.map (fun r => r.price) =
      [Cell.num (-500)] ∧ ¬ ((0 : ℚ) ≤ -500) := by
  constructor
  · decide
  · decide

/-- Claim C6 (amended): every row retained by preprocessing has a valid
numeric price (the parse succeeded; the value may be negative). -/
theorem c6_retained_price_numeric (t : Table) (r : Row)
    (hr : r ∈ (preprocess_data t).rows) : ∃ q : ℚ, r.price = Cell.num q := by
  rw [preprocess_rows t] at hr
  obtain ⟨x, hx, rfl⟩ := List.mem_map.mp hr
  have hpx : isNum (coercePrice x.price) = true := (List.mem_filter.mp hx).2
  obtain ⟨q, hq⟩ := isNum_eq_num hpx
  refine ⟨q, ?_⟩
  rw [rowDateStep_price]
  exact hq

theorem c6_witness :
    ({ brand := "Acer", model := "Swift", platform := "Amazon",
       price := Cell.num (-500), city := "Bhopal",
       rating := Cell.na, date := Cell.na } : Row) ∈
        (preprocess_data negPriceTable).rows ∧
      ∃ q : ℚ,
        ({ brand := "Acer", model := "Swift", platform := "Amazon",
           price := Cell.num (-500), city := "Bhopal",
           rating := Cell.na, date := Cell.na } : Row).price = Cell.num q :=
  ⟨by decide, c6_retained_price_numeric negPriceTable _ (by decide)⟩

/-- Claim C2: on any price string that is a plain decimal number wrapped in
currency decoration (rupee signs and comma separators, with an optional
fractional part), the price coercion of `preprocess_data` yields exactly
the decimal value of the undecorated digits; in particular preprocessing
turns the price "₹1,23,456" into the number 123456. -/
theorem c2_price_parsing :
    (∀ s : String, stripCurrencyL s.data ≠ [] →
        (stripCurrencyL s.data).all Char.isDigit = true →
        coercePrice (Cell.str s) =
          Cell.num ((digitsNat (stripCurrencyL s.data) : ℕ) : ℚ)) ∧
    (∀ (s : String) (ds fs : List Char), stripCurrencyL s.data = ds ++ '.' :: fs →
        ds ≠ [] → ds.all Char.isDigit = true → fs.all Char.isDigit = true →
        coercePrice (Cell.str s) =
          Cell.num ((digitsNat ds : ℚ) + fracVal fs)) ∧
    (preprocess_data rupeeExampleTable).rows.map (fun r => r.price) =
      [Cell.num 123456] := by
  refine ⟨?_, ?_, by decide⟩
  · intro s h1 h2
    simp only [coercePrice]
    rw [parseNumL_digits _ h1 h2]
  · intro s ds fs hsplit h1 h2 h3
    simp only [coercePrice]
    rw [hsplit, parseNumL_digits_frac ds fs h1 h2 h3]

theorem c2_witness :
    stripCurrencyL "₹45,000".data ≠ [] ∧
      (stripCurrencyL "₹45,000".data).all Char.isDigit = true ∧
      coercePrice (Cell.str "₹45,000") = Cell.num 45000 :=
  ⟨by decide, by decide, by
    have h := c2_price_parsing.1 "₹45,000" (by decide) (by decide)
    rw [h]
    decide⟩

/-- Claim C8: the rating-vs-price view builder returns the user-visible
"unavailable" warning (and no chart) exactly when the rating column is
absent or holds no value; otherwise it passes each row through as a
scatter point (rating, price, platform, price-as-size, brand, model). -/
theorem c8_scatter_availability (t : Table) :
    ((t.hasRating = false ∨ ∀ r ∈ t.rows, cellIsNA r.rating = true) →
      create_rating_price_scatter t =
        ScatterView.unavailable
          "Rating data not available for scatter plot analysis.") ∧
    ((t.hasRating = true ∧ ∃ r ∈ t.rows, cellIsNA r.rating = false) →
      create_rating_price_scatter t =
        ScatterView.chart
          (t.rows.map fun r =>
            (r.rating, r.price, r.platform, r.price, r.brand, r.model))) := by
  constructor
  · intro h
    have hcond : (!t.hasRating || t.rows.all fun r => cellIsNA r.rating) = true := by
      rcases h with h | h
      · rw [h]
        rfl
      · rw [List.all_eq_true.mpr h]
        exact Bool.or_true _
    simp only [create_rating_price_scatter, if_pos hcond]
  · intro h
    obtain ⟨hr, r, hmem, hfalse⟩ := h
    have hcond : (!t.hasRating || t.rows.all fun r => cellIsNA r.rating) = false := by
      rw [hr]
      have : (t.rows.all fun r => cellIsNA r.rating) = false := by
        apply Bool.eq_false_iff.mpr
        intro hall
        rw [List.all_eq_true.mp hall r hmem] at hfalse
        simp at hfalse
      rw [this]
      rfl
    simp only [create_rating_price_scatter, hcond]
    rw [if_neg (by decide)]

theorem c8_witness :
    ((unratedTable.hasRating = false ∨
        ∀ r ∈ unratedTable.rows, cellIsNA r.rating = true) ∧
      create_rating_price_scatter unratedTable =
        ScatterView.unavailable
          "Rating data not available for scatter plot analysis.") ∧
    ((ratedTable.hasRating = true ∧
        ∃ r ∈ ratedTable.rows, cellIsNA r.rating = false) ∧
      create_rating_price_scatter ratedTable =
        ScatterView.chart
          (ratedTable.rows.map fun r =>
            (r.rating, r.price, r.platform, r.price, r.brand, r.model))) :=
  ⟨⟨Or.inr (by decide),
      (c8_scatter_availability unratedTable).1 (Or.inr (by decide))⟩,
    ⟨⟨by decide, by decide⟩,
      (c8_scatter_availability ratedTable).2 ⟨by decide, by decide⟩⟩⟩

/-- Counterexample to claim C9 as stated: the placeholder values come from
`np.random.randint` with no seed, so two invocations that consume
different random states (modelled by the explicit `rng` stream) yield
different placeholder series on the same input frame. -/
theorem c9_counterexample :
    create_price_trend_chart (fun _ => 0) datelessTable ≠
      create_price_trend_chart (fun _ => 1) datelessTable := by
  decide

/-- Claim C9 (amended): on a frame with no usable date data, the trend
builder never fails and synthesizes a placeholder series whose date range
is fixed and deterministic — the twelve 2024 month ends, identical across
invocations — while the twelve values are drawn from the random source
within [40000, 80000) and may differ between invocations. -/
theorem c9_placeholder_fixed_dates (t : Table) (rng1 rng2 : ℕ → ℕ)
    (h : (!t.hasDate || t.rows.all fun r => cellIsNA r.date) = true) :
    (create_price_trend_chart rng1 t).sample = true ∧
    (create_price_trend_chart rng1 t).points.map Prod.fst = monthEnds2024 ∧
    (create_price_trend_chart rng1 t).points.map Prod.fst =
      (create_price_trend_chart rng2 t).points.map Prod.fst ∧
    ∀ p ∈ (create_price_trend_chart rng1 t).points,
      ∃ n : ℕ, p.2 = (n : ℚ) ∧ 40000 ≤ n ∧ n < 80000 := by
  have e : ∀ rng : ℕ → ℕ,
      create_price_trend_chart rng t =
        { sample := true,
          points :=
            monthEnds2024.zip
              ((List.range 12).map fun i => ((40000 + rng i % 40000 : ℕ) : ℚ)) } := by
    intro rng
    simp only [create_price_trend_chart, if_pos h]
  have hfst : ∀ rng : ℕ → ℕ,
      (monthEnds2024.zip
          ((List.range 12).map fun i => ((40000 + rng i % 40000 : ℕ) : ℚ))).map
        Prod.fst = monthEnds2024 := by
    intro rng
    apply List.map_fst_zip
    simp [monthEnds2024]
  refine ⟨by rw [e rng1], ?_, ?_, ?_⟩
  · rw [e rng1]
    exact hfst rng1
  · rw [e rng1, e rng2]
    rw [hfst rng1, hfst rng2]
  · intro p hp
    rw [e rng1] at hp
    have hp2 := (List.of_mem_zip hp).2
    obtain ⟨i, _, hi⟩ := List.mem_map.mp hp2
    refine ⟨40000 + rng1 i % 40000, hi.symm, Nat.le_add_right _ _, ?_⟩
    have := Nat.mod_lt (rng1 i) (show 0 < 40000 by norm_num)
    omega

theorem c9_witness :
    ((!datelessTable.hasDate ||
        datelessTable.rows.all fun r => cellIsNA r.date) = true) ∧
    ((create_price_trend_chart (fun _ => 0) datelessTable).sample = true ∧
      (create_price_trend_chart (fun _ => 0) datelessTable).points.map
          Prod.fst = monthEnds2024 ∧
      (create_price_trend_chart (fun _ => 0) datelessTable).points.map
          Prod.fst =
        (create_price_trend_chart (fun _ => 7) datelessTable).points.map
          Prod.fst ∧
      ∀ p ∈ (create_price_trend_chart (fun _ => 0) datelessTable).points,
        ∃ n : ℕ, p.2 = (n : ℚ) ∧ 40000 ≤ n ∧ n < 80000) :=
  ⟨by decide,
    c9_placeholder_fixed_dates datelessTable (fun _ => 0) (fun _ => 7)
      (by decide)⟩

/-- Membership in the price column. -/
theorem mem_numPrices {rows : List Row} {r : Row} {q : ℚ}
    (hr : r ∈ rows) (hq : r.price = Cell.num q) : q ∈ numPrices rows := by
  apply List.mem_filterMap.mpr
  refine ⟨r, hr, ?_⟩
  rw [hq]
  rfl

/-- Counterexample to claim C4 as stated: with every sentinel at "All" and
the slider at its full default range, filtering `fracPriceTable` does not
return the input — the whole-range bounds pass through Python `int()`,
which truncates the fractional maximum 100000.5 down to 100000 and drops
the most expensive row. -/
theorem c4_counterexample :
    applyFilters (fullRangeCriteria fracPriceTable) fracPriceTable ≠
      fracPriceTable := by
  decide

/-- Claim C4 (amended): on a non-empty preprocessed frame whose minimum
and maximum prices are whole numbers (so that the `int()` truncation in
the slider bounds is lossless), the Filter Engine under all-sentinel
criteria and the full default price range is the identity. -/
theorem c4_full_range_identity (t : Table)
    (_hne : t.rows ≠ [])
    (hnum : ∀ r ∈ t.rows, ∃ q : ℚ, r.price = Cell.num q)
    (hmin : ∃ a : ℤ, minQ (numPrices t.rows) = (a : ℚ))
    (hmax : ∃ b : ℤ, maxQ (numPrices t.rows) = (b : ℚ)) :
    applyFilters (fullRangeCriteria t) t = t := by
  refine table_ext ?_ rfl rfl
  show (applyFilters (fullRangeCriteria t) t).rows = t.rows
  simp only [applyFilters]
  rw [foldl_filterStep]
  apply List.filter_eq_self.mpr
  intro r hr
  obtain ⟨q, hq⟩ := hnum r hr
  have hqmem : q ∈ numPrices t.rows := mem_numPrices hr hq
  simp only [List.all_cons, List.all_nil, Bool.and_true, Bool.and_eq_true]
  refine ⟨rfl, ?_, rfl, rfl⟩
  show (cellGE r.price (fullRangeCriteria t).lo &&
      cellLE r.price (fullRangeCriteria t).hi) = true
  rw [hq]
  simp only [cellGE, cellLE, Bool.and_eq_true, decide_eq_true_eq]
  constructor
  · show ((pyInt (minQ (numPrices t.rows)) : ℤ) : ℚ) ≤ q
    obtain ⟨a, ha⟩ := hmin
    rw [ha, pyInt_intCast, ← ha]
    exact minQ_le_mem _ q hqmem
  · show q ≤ ((pyInt (maxQ (numPrices t.rows)) : ℤ) : ℚ)
    obtain ⟨b, hb⟩ := hmax
    rw [hb, pyInt_intCast, ← hb]
    exact le_maxQ_mem _ q hqmem

theorem c4_witness :
    intPriceTable.rows ≠ [] ∧
      (∀ r ∈ intPriceTable.rows, ∃ q : ℚ, r.price = Cell.num q) ∧
      (∃ a : ℤ, minQ (numPrices intPriceTable.rows) = (a : ℚ)) ∧
      (∃ b : ℤ, maxQ (numPrices intPriceTable.rows) = (b : ℚ)) ∧
      applyFilters (fullRangeCriteria intPriceTable) intPriceTable =
        intPriceTable := by
  have hnum : ∀ r ∈ intPriceTable.rows, ∃ q : ℚ, r.price = Cell.num q := by
    intro r hr
    rcases List.mem_cons.mp hr with rfl | h2
    · exact ⟨45000, rfl⟩
    · cases h2
  refine ⟨by decide, hnum, ⟨45000, by decide⟩, ⟨45000, by decide⟩, ?_⟩
  exact c4_full_range_identity intPriceTable (by decide) hnum
    ⟨45000, by decide⟩ ⟨45000, by decide⟩

theorem meanQ_singleton (q : ℚ) : meanQ [q] = q := by
  simp [meanQ]

theorem minQ_singleton (q : ℚ) : minQ [q] = q := rfl

theorem round2_intCast (n : ℤ) : round2 ((n : ℤ) : ℚ) = (n : ℚ) := by
  unfold round2 roundHalfEven
  have h100 : ((n : ℚ)) * 100 = ((100 * n : ℤ) : ℚ) := by
    push_cast
    ring
  rw [h100, Int.floor_intCast]
  rw [if_pos (by rw [sub_self]; norm_num)]
  push_cast
  field_simp

theorem abc_stats :
    platform_stats abcRows =
      [{ platform := "A", avg_price := 50000, min_price := 50000,
         product_count := 1 },
       { platform := "B", avg_price := 40000, min_price := 40000,
         product_count := 1 },
       { platform := "C", avg_price := 60000, min_price := 60000,
         product_count := 1 }] := by
  have hkeys : platformKeys abcRows = ["A", "B", "C"] := by decide
  have hA : groupPrices abcRows "A" = [50000] := by decide
  have hB : groupPrices abcRows "B" = [40000] := by decide
  have hC : groupPrices abcRows "C" = [60000] := by decide
  have h50 : round2 (50000 : ℚ) = 50000 := by
    rw [show (50000 : ℚ) = ((50000 : ℤ) : ℚ) by norm_num, round2_intCast]
  have h40 : round2 (40000 : ℚ) = 40000 := by
    rw [show (40000 : ℚ) = ((40000 : ℤ) : ℚ) by norm_num, round2_intCast]
  have h60 : round2 (60000 : ℚ) = 60000 := by
    rw [show (60000 : ℚ) = ((60000 : ℤ) : ℚ) by norm_num, round2_intCast]
  simp only [platform_stats]
  rw [hkeys]
  simp only [List.map_cons, List.map_nil]
  rw [hA, hB, hC]
  simp only [meanQ_singleton, minQ_singleton, List.length_cons,
    List.length_nil]
  rw [h50, h40, h60]

/-- Claim C1: the aggregator groups the frame by platform, reduces each
group to rounded (mean, min, count) statistics (the `platform_stats`
definition), sorts them ascending by mean price, and recommends exactly
the first two entries of that ordering; on platforms A (mean 50000),
B (mean 40000) and C (mean 60000) the recommendation is [B, A]. -/
theorem c1_platform_ranking :
    (∀ rows : List Row, rows ≠ [] →
        List.Sorted (fun a b : PStat => a.avg_price ≤ b.avg_price)
            (sortByAvg (platform_stats rows)) ∧
          (sortByAvg (platform_stats rows)).Perm (platform_stats rows) ∧
          identify_cheapest_platforms rows =
            (sortByAvg (platform_stats rows)).take 2) ∧
    identify_cheapest_platforms abcRows =
      [{ platform := "B", avg_price := 40000, min_price := 40000,
         product_count := 1 },
       { platform := "A", avg_price := 50000, min_price := 50000,
         product_count := 1 }] := by
  constructor
  · intro rows _
    refine ⟨?_, ?_, rfl⟩
    · haveI : IsTotal PStat (fun a b => a.avg_price ≤ b.avg_price) :=
        ⟨fun a b => le_total _ _⟩
      haveI : IsTrans PStat (fun a b => a.avg_price ≤ b.avg_price) :=
        ⟨fun a b c h1 h2 => le_trans h1 h2⟩
      exact List.sorted_insertionSort _ _
    · exact List.perm_insertionSort _ _
  · show (sortByAvg (platform_stats abcRows)).take 2 = _
    rw [abc_stats]
    decide

theorem c1_witness :
    abcRows ≠ [] ∧
      (List.Sorted (fun a b : PStat => a.avg_price ≤ b.avg_price)
          (sortByAvg (platform_stats abcRows)) ∧
        (sortByAvg (platform_stats abcRows)).Perm (platform_stats abcRows) ∧
        identify_cheapest_platforms abcRows =
          (sortByAvg (platform_stats abcRows)).take 2) :=
  ⟨by decide, c1_platform_ranking.1 abcRows (by decide)⟩
